import Mathlib

/-!
Shallow embedding of the option-chain processor in Oc2.py.

Numeric values (prices, strikes, intervals) are modelled as exact rationals;
the few places where Python float semantics are observable (0/0 giving NaN,
int() truncating toward zero) are modelled explicitly.  Pandas tables are
modelled as lists of typed rows; the pandas behaviours the program relies on
(column membership tests, KeyError on a missing column of an empty frame,
in-place column assignment, outer merge on a key) are embedded where the
program exercises them.
-/

/-- A Python float value as it occurs in this pipeline: an exact rational,
NaN (from 0/0), or a signed infinity (from x/0 with x nonzero). -/
inductive PyFloat where
  | nan : PyFloat
  | posInf : PyFloat
  | negInf : PyFloat
  | val : ℚ → PyFloat
  deriving DecidableEq

/-- numpy/pandas float division on exact rational inputs: 0/0 is NaN and
x/0 for nonzero x is a signed infinity (a warning, not an exception). -/
def pyDiv (a b : ℚ) : PyFloat :=
  if b = 0 then (if a = 0 then .nan else if 0 < a then .posInf else .negInf)
  else .val (a / b)

/-- Python int() on a float: truncation toward zero. -/
def pyInt (q : ℚ) : ℤ := if 0 ≤ q then ⌊q⌋ else ⌈q⌉

/-- Embeds round_nearest_strike: int(np.ceil(float(x) / num) * num). -/
def round_nearest_strike (x num : ℚ) : ℤ := pyInt ((⌈x / num⌉ : ℚ) * num)

/-- The CE or PE sub-record of one raw record. -/
structure SideQuote where
  lastPrice : ℚ
  openInterest : ℚ
  changeinOpenInterest : ℚ
  impliedVolatility : ℚ
  deriving DecidableEq

/-- One element of records.data in the acquired snapshot.  CE / PE are
none when the corresponding key is absent from the JSON record. -/
structure RawRecord where
  strikePrice : ℚ
  expiryDate : String
  CE : Option SideQuote
  PE : Option SideQuote
  deriving DecidableEq

/-- The acquired chain document (the records object of the NSE response). -/
structure RawSnapshot where
  underlyingValue : ℚ
  expiryDates : List String
  data : List RawRecord
  deriving DecidableEq

/-- A row of one side table (ce_data / pe_data entries). -/
structure SideRow where
  strikePrice : ℚ
  lastPrice : ℚ
  openInterest : ℚ
  changeinOpenInterest : ℚ
  impliedVolatility : ℚ
  deriving DecidableEq

/-- A side-table row after calculate_weighted_avg_price has run on its table:
the function assigns the three helper columns distance, weight and
weighted_price in place, so the table it was given ends up with these extra
columns. -/
structure AugSideRow extends SideRow where
  distance : ℚ
  weight : ℚ
  weighted_price : ℚ
  deriving DecidableEq

/-- The weight kernel of one row: 1 / (1 + |strikePrice - atm| / interval). -/
def wgt (atm si : ℚ) (r : SideRow) : ℚ := 1 / (1 + |r.strikePrice - atm| / si)

/-- The three in-place column assignments of calculate_weighted_avg_price,
applied to one row. -/
def augmentRow (atm si : ℚ) (r : SideRow) : AugSideRow :=
  { toSideRow := r
    distance := |r.strikePrice - atm|
    weight := wgt atm si r
    weighted_price := r.lastPrice * wgt atm si r }

/-- Embeds calculate_weighted_avg_price (always called with price_col =
lastPrice).  The pandas frame is mutated in place by the three column
assignments, so the function returns both the augmented table and the
scalar df.weighted_price.sum() / df.weight.sum(); on an empty table both
sums are 0 and the float quotient is NaN. -/
def calculate_weighted_avg_price (df : List SideRow) (atm si : ℚ) :
    List AugSideRow × PyFloat :=
  let aug := df.map (augmentRow atm si)
  (aug, pyDiv ((aug.map fun r => r.weighted_price).sum)
              ((aug.map fun r => r.weight).sum))

/-- Projection of a CE/PE sub-record into a side-table row. -/
def projectSide (strike : ℚ) (q : SideQuote) : SideRow :=
  { strikePrice := strike
    lastPrice := q.lastPrice
    openInterest := q.openInterest
    changeinOpenInterest := q.changeinOpenInterest
    impliedVolatility := q.impliedVolatility }

/-- One side of the iterrows projection loop.  hasCol says whether the
side's column exists in the DataFrame built from the filtered records: in
pandas a column exists iff at least one record has that key, and the test
in the source checks membership in the row's index (the columns), not in
the individual JSON record.  A record lacking the side while the column
exists holds float NaN in that cell, and subscripting NaN with lastPrice
raises TypeError. -/
def sideRowsLoop (hasCol : Bool) (side : RawRecord → Option SideQuote) :
    List RawRecord → Except String (List SideRow)
  | [] => .ok []
  | r :: rs =>
    if hasCol then
      match side r with
      | some q =>
        match sideRowsLoop hasCol side rs with
        | .ok rest => .ok (projectSide r.strikePrice q :: rest)
        | .error e => .error e
      | none => .error "TypeError: float object is not subscriptable"
    else sideRowsLoop hasCol side rs

/-- The projection of the filtered records into one side table. -/
def sideRows (side : RawRecord → Option SideQuote) (rs : List RawRecord) :
    Except String (List SideRow) :=
  sideRowsLoop (rs.any fun r => (side r).isSome) side rs

/-- Embeds: if underlying_price is None, underlying_price =
data.records.underlyingValue. -/
def resolveUnderlying (up : Option ℚ) (sn : RawSnapshot) : ℚ :=
  up.getD sn.underlyingValue

/-- Embeds: if not expiry_date, expiry_date = expiry_dates[0].  Both None
and the empty string are falsy in Python, and indexing an empty list
raises IndexError. -/
def resolveExpiry (ed : Option String) (sn : RawSnapshot) : Except String String :=
  if ed.getD "" = "" then
    match sn.expiryDates with
    | [] => .error "IndexError: list index out of range"
    | e :: _ => .ok e
  else .ok (ed.getD "")

/-- The window filter of one side table, keyed on that table's own
strikePrice column: atm - 10*interval <= strikePrice <= atm + 10*interval,
both ends inclusive. -/
def windowFilter (rows : List SideRow) (atm : ℤ) (si : ℚ) : List SideRow :=
  rows.filter fun r =>
    decide ((atm : ℚ) - 10 * si ≤ r.strikePrice) &&
    decide (r.strikePrice ≤ (atm : ℚ) + 10 * si)

/-- sort_values on strikePrice: a stable ascending sort. -/
def sortStrike (rows : List SideRow) : List SideRow :=
  rows.mergeSort fun a b => decide (a.strikePrice ≤ b.strikePrice)

/-- The per-side windowing step of process_option_chain: filter the side
table by its own strikePrice column, then sort ascending by strikePrice. -/
def sideWindow (rows : List SideRow) (atm : ℤ) (si : ℚ) : List SideRow :=
  sortStrike (windowFilter rows atm si)

/-- One row of the outer merge of the two (augmented) side tables on
strikePrice; a side absent at that strike is none. -/
structure MergedRow where
  strikePrice : ℚ
  ce : Option AugSideRow
  pe : Option AugSideRow
  deriving DecidableEq

/-- The outer merge of the two side tables on strikePrice (pandas
merge(how=outer)): each left row is paired with every right row carrying
the same key, a left row with no match appears with the right side none,
and each unmatched right row appears with the left side none.  Row order
is abstracted (left blocks in order, then right-only rows); the claims
about the merge are order-independent. -/
def mergeBlock (pe : List AugSideRow) (c : AugSideRow) : List MergedRow :=
  let ms := pe.filter fun p => decide (p.strikePrice = c.strikePrice)
  if ms.isEmpty then [{ strikePrice := c.strikePrice, ce := some c, pe := none }]
  else ms.map fun p => { strikePrice := c.strikePrice, ce := some c, pe := some p }

def mergeOuter (ce pe : List AugSideRow) : List MergedRow :=
  ce.flatMap (mergeBlock pe)
  ++ ((pe.filter fun p => ce.all fun c => decide (c.strikePrice ≠ p.strikePrice)).map
      fun p => { strikePrice := p.strikePrice, ce := none, pe := some p })

/-- The columns of a freshly projected side table, in construction order. -/
def SideRow.columns : List String :=
  ["strikePrice", "lastPrice", "openInterest", "changeinOpenInterest",
   "impliedVolatility"]

/-- The columns of a side table after calculate_weighted_avg_price has run
on it: pandas appends each newly assigned column on the right, in
assignment order. -/
def AugSideRow.columns : List String :=
  SideRow.columns ++ ["distance", "weight", "weighted_price"]

/-- The column layout of ce_filtered.merge(pe_filtered, on=strikePrice,
suffixes=(_CE, _PE), how=outer): the key once, then the left non-key
columns suffixed _CE, then the right non-key columns suffixed _PE. -/
def mergedColumns : List String :=
  "strikePrice" ::
    ((AugSideRow.columns.filter fun c => decide (c ≠ "strikePrice")).map
        (fun c => c ++ "_CE")
      ++ (AugSideRow.columns.filter fun c => decide (c ≠ "strikePrice")).map
        (fun c => c ++ "_PE"))

/-- Modelled from the spec: the MergedChain columns the spec describes,
namely strikePrice plus the side-suffixed SideRow fields only (no
computation-internal columns).  Kept separate from mergedColumns, which
follows the source, so the two can be compared. -/
def specMergedColumns : List String :=
  "strikePrice" ::
    ((SideRow.columns.filter fun c => decide (c ≠ "strikePrice")).map
        (fun c => c ++ "_CE")
      ++ (SideRow.columns.filter fun c => decide (c ≠ "strikePrice")).map
        (fun c => c ++ "_PE"))

/-- The five-element result of process_option_chain. -/
structure ProcResult where
  option_chain : List MergedRow
  atm_strike : ℤ
  underlying_price : ℚ
  ce_weighted_avg : PyFloat
  pe_weighted_avg : PyFloat
  deriving DecidableEq

/-- The body of the try-block of process_option_chain, after the external
fetch: parameter resolution, expiry filtering, per-side projection, ATM
strike, windowing, the two weighted averages, and the outer merge.  An
empty side table has no strikePrice column in pandas, so the window filter
on it raises KeyError. -/
def processCore (sn : RawSnapshot) (expiry_date : Option String)
    (underlying_price : Option ℚ) (strike_interval : ℚ) :
    Except String ProcResult :=
  let up := resolveUnderlying underlying_price sn
  match resolveExpiry expiry_date sn with
  | .error e => .error e
  | .ok ed =>
    let filtered := sn.data.filter fun d => decide (d.expiryDate = ed)
    match sideRows (fun r => r.CE) filtered with
    | .error e => .error e
    | .ok ceRows =>
      match sideRows (fun r => r.PE) filtered with
      | .error e => .error e
      | .ok peRows =>
        let atm := round_nearest_strike up strike_interval
        if ceRows.isEmpty then .error "KeyError: strikePrice"
        else if peRows.isEmpty then .error "KeyError: strikePrice"
        else
          let ce_filtered := sideWindow ceRows atm strike_interval
          let pe_filtered := sideWindow peRows atm strike_interval
          let ceOut := calculate_weighted_avg_price ce_filtered (atm : ℚ) strike_interval
          let peOut := calculate_weighted_avg_price pe_filtered (atm : ℚ) strike_interval
          .ok { option_chain := mergeOuter ceOut.1 peOut.1
                atm_strike := atm
                underlying_price := up
                ce_weighted_avg := ceOut.2
                pe_weighted_avg := peOut.2 }

/-- Embeds process_option_chain with the snapshot passed in (the external
fetch is the out-of-scope collaborator): any exception escaping the body
is re-raised with the Processing error context prefix. -/
def process_option_chain (sn : RawSnapshot) (expiry_date : Option String)
    (underlying_price : Option ℚ) (strike_interval : ℚ) :
    Except String ProcResult :=
  match processCore sn expiry_date underlying_price strike_interval with
  | .ok r => .ok r
  | .error e => .error ("Processing error: " ++ e)

/-- Modelled from the spec: WeightedAverage as the spec defines it, a total
rational value over the filtered rows, with distance = |strikePrice -
AtmStrike|, weight = 1 / (1 + distance / strikeInterval), and
WeightedAverage the quotient of the two sums. -/
def specWeightedAverage (rows : List SideRow) (atm si : ℚ) : ℚ :=
  (rows.map fun r => (1 / (1 + |r.strikePrice - atm| / si)) * r.lastPrice).sum /
    (rows.map fun r => 1 / (1 + |r.strikePrice - atm| / si)).sum

/-- The least lastPrice over a nonempty list of side rows. -/
def minLastPrice : SideRow → List SideRow → ℚ
  | r, [] => r.lastPrice
  | r, s :: ss => min r.lastPrice (minLastPrice s ss)

/-- The greatest lastPrice over a nonempty list of side rows. -/
def maxLastPrice : SideRow → List SideRow → ℚ
  | r, [] => r.lastPrice
  | r, s :: ss => max r.lastPrice (maxLastPrice s ss)

/-! Helper lemmas shared by several claims. -/

lemma wgt_pos (atm si : ℚ) (r : SideRow) (hsi : 0 < si) : 0 < wgt atm si r := by
  unfold wgt
  positivity

lemma calc_snd (df : List SideRow) (atm si : ℚ) :
    (calculate_weighted_avg_price df atm si).2 =
      pyDiv ((df.map fun r => r.lastPrice * wgt atm si r).sum)
            ((df.map (wgt atm si)).sum) := by
  simp [calculate_weighted_avg_price, List.map_map, Function.comp_def, augmentRow]

lemma sumWgt_pos (atm si : ℚ) (l : List SideRow) (hsi : 0 < si) (hne : l ≠ []) :
    0 < (l.map (wgt atm si)).sum := by
  refine List.sum_pos _ ?_ (by simpa using hne)
  intro x hx
  obtain ⟨r, _, rfl⟩ := List.mem_map.mp hx
  exact wgt_pos atm si r hsi

/-- Claim C1: over any non-empty filtered side table (with a positive strike
interval) the scalar returned by calculate_weighted_avg_price agrees with the
spec's reference definition of WeightedAverage, and on the two-row CE example
of the spec (strikes 24100 and 24150, last prices 80 and 50, ATM 24150,
interval 50) it is exactly 60. -/
theorem claim_C1 (rows : List SideRow) (atm si : ℚ) (hne : rows ≠ []) (hsi : 0 < si) :
    (calculate_weighted_avg_price rows atm si).2 =
      PyFloat.val (specWeightedAverage rows atm si) ∧
    (calculate_weighted_avg_price
        [⟨24100, 80, 0, 0, 0⟩, ⟨24150, 50, 0, 0, 0⟩] 24150 50).2 = PyFloat.val 60 := by
  constructor
  · rw [calc_snd]
    have hW : 0 < (rows.map (wgt atm si)).sum := sumWgt_pos atm si rows hsi hne
    rw [pyDiv, if_neg hW.ne']
    have hnum : (rows.map fun r => r.lastPrice * wgt atm si r) =
        rows.map fun r => (1 / (1 + |r.strikePrice - atm| / si)) * r.lastPrice := by
      refine List.map_congr_left fun r _ => ?_
      rw [wgt, mul_comm]
    have hden : List.map (wgt atm si) rows =
        List.map (fun r => 1 / (1 + |r.strikePrice - atm| / si)) rows :=
      List.map_congr_left fun r _ => rfl
    rw [specWeightedAverage, ← hnum, hden]
  · norm_num [calculate_weighted_avg_price, augmentRow, wgt, pyDiv]

/-- Witness for C1 at the spec's concrete example. -/
theorem claim_C1_witness :
    (calculate_weighted_avg_price
        [⟨24100, 80, 0, 0, 0⟩, ⟨24150, 50, 0, 0, 0⟩] 24150 50).2 =
      PyFloat.val (specWeightedAverage
        [⟨24100, 80, 0, 0, 0⟩, ⟨24150, 50, 0, 0, 0⟩] 24150 50) ∧
    (calculate_weighted_avg_price
        [⟨24100, 80, 0, 0, 0⟩, ⟨24150, 50, 0, 0, 0⟩] 24150 50).2 = PyFloat.val 60 :=
  claim_C1 [⟨24100, 80, 0, 0, 0⟩, ⟨24150, 50, 0, 0, 0⟩] 24150 50
    (List.cons_ne_nil _ _) (by norm_num)

/-- Counterexample to C2 as stated: with underlyingPrice 11/5 = 2.2 and
strikeInterval 5/2 = 2.5 the code computes int(ceil(0.88) * 2.5) =
int(2.5) = 2, and 2 < 2.2, so AtmStrike is below the underlying price (the
int() truncation also destroys divisibility by the interval). -/
theorem claim_C2_counterexample :
    round_nearest_strike (11 / 5) (5 / 2) = 2 ∧
    ¬ ((11 / 5 : ℚ) ≤ ((round_nearest_strike (11 / 5) (5 / 2) : ℤ) : ℚ)) := by
  have hc : (⌈(11 / 5 : ℚ) / (5 / 2)⌉ : ℤ) = 1 := by
    rw [Int.ceil_eq_iff]
    norm_num
  have hv : round_nearest_strike (11 / 5) (5 / 2) = 2 := by
    rw [round_nearest_strike, hc, pyInt, if_pos (by norm_num)]
    norm_num
  refine ⟨hv, ?_⟩
  rw [hv]
  norm_num

/-- Claim C2 (amended): the three AtmStrike properties hold for every
rational underlyingPrice whenever the strike interval is a positive
INTEGER; the claim as stated, for arbitrary positive intervals, fails
because int() truncates the non-integer multiple (see the
counterexample). -/
theorem claim_C2 (x : ℚ) (n : ℤ) (hn : 0 < n) :
    n ∣ round_nearest_strike x (n : ℚ) ∧
    x ≤ ((round_nearest_strike x (n : ℚ) : ℤ) : ℚ) ∧
    ((round_nearest_strike x (n : ℚ) : ℤ) : ℚ) - (n : ℚ) < x := by
  have hnQ : (0 : ℚ) < (n : ℚ) := by exact_mod_cast hn
  have hval : round_nearest_strike x (n : ℚ) = ⌈x / (n : ℚ)⌉ * n := by
    have hcast : ((⌈x / (n : ℚ)⌉ : ℤ) : ℚ) * (n : ℚ) =
        ((⌈x / (n : ℚ)⌉ * n : ℤ) : ℚ) := by push_cast; ring
    rw [round_nearest_strike, hcast, pyInt]
    split
    · exact Int.floor_intCast _
    · exact Int.ceil_intCast _
  refine ⟨?_, ?_, ?_⟩
  · rw [hval]
    exact Dvd.intro_left _ rfl
  · rw [hval]
    have h1 : x / (n : ℚ) ≤ (⌈x / (n : ℚ)⌉ : ℚ) := Int.le_ceil _
    have h2 : x / (n : ℚ) * (n : ℚ) ≤ (⌈x / (n : ℚ)⌉ : ℚ) * (n : ℚ) :=
      mul_le_mul_of_nonneg_right h1 hnQ.le
    rw [div_mul_cancel₀ x hnQ.ne'] at h2
    push_cast
    exact h2
  · rw [hval]
    have h1 : (⌈x / (n : ℚ)⌉ : ℚ) < x / (n : ℚ) + 1 := Int.ceil_lt_add_one _
    have h2 : (⌈x / (n : ℚ)⌉ : ℚ) * (n : ℚ) < (x / (n : ℚ) + 1) * (n : ℚ) :=
      mul_lt_mul_of_pos_right h1 hnQ
    rw [add_mul, div_mul_cancel₀ x hnQ.ne', one_mul] at h2
    push_cast
    linarith

/-- Witness for C2 (amended) at the spec's example input 24125 with
interval 50. -/
theorem claim_C2_witness :
    (50 : ℤ) ∣ round_nearest_strike 24125 ((50 : ℤ) : ℚ) ∧
    (24125 : ℚ) ≤ ((round_nearest_strike 24125 ((50 : ℤ) : ℚ) : ℤ) : ℚ) ∧
    ((round_nearest_strike 24125 ((50 : ℤ) : ℚ) : ℤ) : ℚ) - ((50 : ℤ) : ℚ) < 24125 :=
  claim_C2 24125 50 (by norm_num)

/-- A snapshot whose selected expiry has one record with both sides and one
record with a CE sub-record but no PE sub-record. -/
def c3Snapshot : RawSnapshot :=
  { underlyingValue := 24125
    expiryDates := ["2024-01-25"]
    data :=
      [{ strikePrice := 24100, expiryDate := "2024-01-25"
         CE := some ⟨80, 100, 10, 12⟩, PE := some ⟨30, 200, 5, 14⟩ },
       { strikePrice := 24150, expiryDate := "2024-01-25"
         CE := some ⟨50, 150, 8, 13⟩, PE := none }] }

/-- Claim C3, evaluated at the failing input: a record with CE but no PE
does NOT yield a merged row with null PE fields.  Because another record
in the frame has a PE sub-record, the PE column exists, the membership
test on the row index passes for every row, the missing cell is float NaN,
and subscripting it raises TypeError, so the whole call fails with the
wrapped Processing error.  The claim describes the evident intent of the
per-record presence checks; the pandas column-membership semantics makes
the code crash instead. -/
theorem claim_C3 :
    process_option_chain c3Snapshot none none 50 =
      .error "Processing error: TypeError: float object is not subscriptable" := by
  simp [process_option_chain, processCore, resolveExpiry, c3Snapshot, sideRows,
    sideRowsLoop]

/-- A snapshot whose single record (carrying both sides) lies far outside
the strike window around the ATM strike, so both filtered side tables are
empty. -/
def c4Snapshot : RawSnapshot :=
  { underlyingValue := 24125
    expiryDates := ["2024-01-25"]
    data :=
      [{ strikePrice := 100, expiryDate := "2024-01-25"
         CE := some ⟨5, 10, 1, 9⟩, PE := some ⟨7, 20, 2, 11⟩ }] }

lemma rns_24125_50 : round_nearest_strike 24125 50 = 24150 := by
  have hc : (⌈(24125 : ℚ) / 50⌉ : ℤ) = 483 := by
    rw [Int.ceil_eq_iff]
    norm_num
  rw [round_nearest_strike, hc, pyInt, if_pos (by norm_num)]
  norm_num

/-- Counterexample to C4 as stated: with both filtered side tables empty
(underlying 24125, interval 50, only strike 100 in the data) the processor
returns successfully, with NaN as both weighted averages; it raises
nothing. -/
theorem claim_C4_counterexample :
    process_option_chain c4Snapshot none none 50 =
      .ok { option_chain := [], atm_strike := 24150, underlying_price := 24125
            ce_weighted_avg := PyFloat.nan, pe_weighted_avg := PyFloat.nan } ∧
    ∀ e, process_option_chain c4Snapshot none none 50 ≠ .error e := by
  have hok : process_option_chain c4Snapshot none none 50 =
      .ok { option_chain := [], atm_strike := 24150, underlying_price := 24125
            ce_weighted_avg := PyFloat.nan, pe_weighted_avg := PyFloat.nan } := by
    norm_num [process_option_chain, processCore, resolveExpiry, c4Snapshot, sideRows,
      sideRowsLoop, resolveUnderlying, rns_24125_50, sideWindow, windowFilter,
      sortStrike, calculate_weighted_avg_price, pyDiv, mergeOuter, projectSide,
      augmentRow, wgt]
  refine ⟨hok, ?_⟩
  intro e h
  rw [hok] at h
  exact Except.noConfusion h

/-- Claim C4 (amended): an empty filtered side set yields NaN as that
side's weighted average (both float sums are 0 and 0/0 is NaN), with no
exception and no silent 0; concretely, the run in which both windowed
side tables are empty returns ok with NaN on both sides. -/
theorem claim_C4 :
    (∀ atm si : ℚ, (calculate_weighted_avg_price [] atm si).2 = PyFloat.nan) ∧
    windowFilter [⟨100, 5, 10, 1, 9⟩] 24150 50 = [] ∧
    process_option_chain c4Snapshot none none 50 =
      .ok { option_chain := [], atm_strike := 24150, underlying_price := 24125
            ce_weighted_avg := PyFloat.nan, pe_weighted_avg := PyFloat.nan } := by
  refine ⟨?_, ?_, ?_⟩
  · intro atm si
    simp [calculate_weighted_avg_price, pyDiv]
  · norm_num [windowFilter]
  · norm_num [process_option_chain, processCore, resolveExpiry, c4Snapshot, sideRows,
      sideRowsLoop, resolveUnderlying, rns_24125_50, sideWindow, windowFilter,
      sortStrike, calculate_weighted_avg_price, pyDiv, mergeOuter, projectSide,
      augmentRow, wgt]

lemma minLastPrice_le (r : SideRow) (rs : List SideRow) :
    ∀ x ∈ r :: rs, minLastPrice r rs ≤ x.lastPrice := by
  induction rs generalizing r with
  | nil =>
    intro x hx
    rw [List.mem_singleton] at hx
    subst hx
    exact le_of_eq rfl
  | cons s ss ih =>
    intro x hx
    rcases List.mem_cons.mp hx with h | h
    · subst h
      exact min_le_left _ _
    · exact le_trans (min_le_right _ _) (ih s x h)

lemma le_maxLastPrice (r : SideRow) (rs : List SideRow) :
    ∀ x ∈ r :: rs, x.lastPrice ≤ maxLastPrice r rs := by
  induction rs generalizing r with
  | nil =>
    intro x hx
    rw [List.mem_singleton] at hx
    subst hx
    exact le_of_eq rfl
  | cons s ss ih =>
    intro x hx
    rcases List.mem_cons.mp hx with h | h
    · subst h
      exact le_max_left _ _
    · exact le_trans (ih s x h) (le_max_right _ _)

lemma sum_wp_le_mul_sum (atm si : ℚ) (hsi : 0 < si) (M : ℚ) :
    ∀ l : List SideRow, (∀ x ∈ l, x.lastPrice ≤ M) →
      (l.map fun r => r.lastPrice * wgt atm si r).sum ≤ M * (l.map (wgt atm si)).sum := by
  intro l
  induction l with
  | nil => simp
  | cons a t ih =>
    intro h
    simp only [List.map_cons, List.sum_cons, mul_add]
    have h1 : a.lastPrice * wgt atm si a ≤ M * wgt atm si a :=
      mul_le_mul_of_nonneg_right (h a (List.mem_cons_self a t)) (wgt_pos atm si a hsi).le
    have h2 := ih fun x hx => h x (List.mem_cons_of_mem a hx)
    linarith

lemma mul_sum_le_sum_wp (atm si : ℚ) (hsi : 0 < si) (m : ℚ) :
    ∀ l : List SideRow, (∀ x ∈ l, m ≤ x.lastPrice) →
      m * (l.map (wgt atm si)).sum ≤ (l.map fun r => r.lastPrice * wgt atm si r).sum := by
  intro l
  induction l with
  | nil => simp
  | cons a t ih =>
    intro h
    simp only [List.map_cons, List.sum_cons, mul_add]
    have h1 : m * wgt atm si a ≤ a.lastPrice * wgt atm si a :=
      mul_le_mul_of_nonneg_right (h a (List.mem_cons_self a t)) (wgt_pos atm si a hsi).le
    have h2 := ih fun x hx => h x (List.mem_cons_of_mem a hx)
    linarith

/-- Claim C5: for every non-empty filtered side row set (and positive
strike interval) the weighted average returned by
calculate_weighted_avg_price is a value lying between the least and the
greatest lastPrice of the set. -/
theorem claim_C5 (r : SideRow) (rs : List SideRow) (atm si : ℚ) (hsi : 0 < si) :
    ∃ v : ℚ, (calculate_weighted_avg_price (r :: rs) atm si).2 = PyFloat.val v ∧
      minLastPrice r rs ≤ v ∧ v ≤ maxLastPrice r rs := by
  have hW : 0 < ((r :: rs).map (wgt atm si)).sum :=
    sumWgt_pos atm si (r :: rs) hsi (List.cons_ne_nil _ _)
  refine ⟨_, by rw [calc_snd, pyDiv, if_neg hW.ne'], ?_, ?_⟩
  · rw [le_div_iff₀ hW]
    exact mul_sum_le_sum_wp atm si hsi _ (r :: rs) (minLastPrice_le r rs)
  · rw [div_le_iff₀ hW]
    exact sum_wp_le_mul_sum atm si hsi _ (r :: rs) (le_maxLastPrice r rs)

/-- Witness for C5 at the spec's two-row example. -/
theorem claim_C5_witness :
    ∃ v : ℚ, (calculate_weighted_avg_price
        [⟨24100, 80, 0, 0, 0⟩, ⟨24150, 50, 0, 0, 0⟩] 24150 50).2 = PyFloat.val v ∧
      minLastPrice ⟨24100, 80, 0, 0, 0⟩ [⟨24150, 50, 0, 0, 0⟩] ≤ v ∧
      v ≤ maxLastPrice ⟨24100, 80, 0, 0, 0⟩ [⟨24150, 50, 0, 0, 0⟩] :=
  claim_C5 ⟨24100, 80, 0, 0, 0⟩ [⟨24150, 50, 0, 0, 0⟩] 24150 50 (by norm_num)

/-- Claim C6: the per-side windowing of process_option_chain keeps exactly
the rows of that side's own table whose strikePrice lies in the inclusive
window [atm - 10*interval, atm + 10*interval] (the same rows, as a
permutation), sorts them ascending by strikePrice, and on the spec's
example the ATM strike for underlying 24125 with interval 50 is 24150 with
window ends 23650 and 24650. -/
theorem claim_C6 (rows : List SideRow) (atm : ℤ) (si : ℚ) :
    (∀ r : SideRow, r ∈ windowFilter rows atm si ↔
        r ∈ rows ∧ (atm : ℚ) - 10 * si ≤ r.strikePrice ∧
          r.strikePrice ≤ (atm : ℚ) + 10 * si) ∧
    (sideWindow rows atm si).Perm (windowFilter rows atm si) ∧
    List.Pairwise (fun a b : SideRow => a.strikePrice ≤ b.strikePrice)
      (sideWindow rows atm si) ∧
    round_nearest_strike 24125 50 = 24150 ∧
    ((round_nearest_strike 24125 50 : ℤ) : ℚ) - 10 * 50 = 23650 ∧
    ((round_nearest_strike 24125 50 : ℤ) : ℚ) + 10 * 50 = 24650 := by
  refine ⟨?_, ?_, ?_, rns_24125_50, ?_, ?_⟩
  · intro r
    simp [windowFilter, List.mem_filter, and_assoc]
  · exact List.mergeSort_perm _ _
  · have htrans : ∀ a b c : SideRow,
        decide (a.strikePrice ≤ b.strikePrice) = true →
        decide (b.strikePrice ≤ c.strikePrice) = true →
        decide (a.strikePrice ≤ c.strikePrice) = true := by
      intro a b c hab hbc
      rw [decide_eq_true_eq] at *
      exact le_trans hab hbc
    have htotal : ∀ a b : SideRow,
        (decide (a.strikePrice ≤ b.strikePrice) ||
          decide (b.strikePrice ≤ a.strikePrice)) = true := by
      intro a b
      rcases le_total a.strikePrice b.strikePrice with h | h
      · simp [h]
      · simp [h]
    have hs := List.sorted_mergeSort htrans htotal (windowFilter rows atm si)
    exact hs.imp fun h => of_decide_eq_true h
  · rw [rns_24125_50]
    norm_num
  · rw [rns_24125_50]
    norm_num

/-! Helper lemmas for the outer-merge claim. -/

lemma filterKey_length (l : List AugSideRow) (s : ℚ) :
    (l.filter fun p => decide (p.strikePrice = s)).length =
      (l.map fun r => r.strikePrice).count s := by
  induction l with
  | nil => simp
  | cons a t ih =>
    by_cases h : a.strikePrice = s
    · simp [h, ih, List.count_cons]
    · simp [h, ih, List.count_cons]

lemma mergeBlock_length (pe : List AugSideRow)
    (hpe : (pe.map fun r => r.strikePrice).Nodup) (c : AugSideRow) :
    (mergeBlock pe c).length = 1 := by
  rw [mergeBlock]
  by_cases h : (pe.filter fun p => decide (p.strikePrice = c.strikePrice)).isEmpty
  · simp [h]
  · rw [if_neg h, List.length_map]
    have h1 : (pe.filter fun p => decide (p.strikePrice = c.strikePrice)).length ≤ 1 := by
      rw [filterKey_length]
      exact List.nodup_iff_count_le_one.mp hpe _
    have h2 : (pe.filter fun p => decide (p.strikePrice = c.strikePrice)).length ≠ 0 := by
      intro h0
      exact h (List.isEmpty_iff.mpr (List.length_eq_zero.mp h0))
    omega

lemma mergeBlock_strike (pe : List AugSideRow) (c : AugSideRow) (m : MergedRow)
    (hm : m ∈ mergeBlock pe c) : m.strikePrice = c.strikePrice := by
  rw [mergeBlock] at hm
  by_cases h : (pe.filter fun p => decide (p.strikePrice = c.strikePrice)).isEmpty
  · rw [if_pos h, List.mem_singleton] at hm
    rw [hm]
  · rw [if_neg h] at hm
    obtain ⟨p, _, rfl⟩ := List.mem_map.mp hm
    rfl

lemma sum_map_one (l : List α) : (l.map fun _ => (1 : ℕ)).sum = l.length := by
  induction l with
  | nil => simp
  | cons a t ih =>
    simp only [List.map_cons, List.sum_cons, List.length_cons, ih]
    omega

lemma length_flatMap_mergeBlock (ce pe : List AugSideRow)
    (hpe : (pe.map fun r => r.strikePrice).Nodup) :
    (ce.flatMap (mergeBlock pe)).length = ce.length := by
  rw [List.length_flatMap]
  have hconst : ce.map (List.length ∘ mergeBlock pe) = ce.map fun _ => 1 :=
    List.map_congr_left fun c _ => mergeBlock_length pe hpe c
  rw [hconst, sum_map_one]

lemma length_filter_add_not (p : α → Bool) (l : List α) :
    (l.filter p).length + (l.filter fun a => !(p a)).length = l.length := by
  induction l with
  | nil => simp
  | cons a t ih =>
    cases hpa : p a <;> simp [List.filter_cons, hpa] <;> omega

lemma matched_length_le (ce pe : List AugSideRow)
    (hpe : (pe.map fun r => r.strikePrice).Nodup) :
    (pe.filter fun p =>
        !(ce.all fun c => decide (c.strikePrice ≠ p.strikePrice))).length ≤ ce.length := by
  set F := pe.filter fun p =>
    !(ce.all fun c => decide (c.strikePrice ≠ p.strikePrice)) with hF
  have hsub : (F.map fun r => r.strikePrice) ⊆ (ce.map fun r => r.strikePrice) := by
    intro s hs
    obtain ⟨p, hpF, rfl⟩ := List.mem_map.mp hs
    have hall := (List.mem_filter.mp hpF).2
    rw [Bool.not_eq_true'] at hall
    obtain ⟨c, hc, hne⟩ := List.all_eq_false.mp hall
    rw [decide_eq_true_eq] at hne
    push_neg at hne
    exact List.mem_map.mpr ⟨c, hc, hne⟩
  have hnodup : (F.map fun r => r.strikePrice).Nodup :=
    List.Nodup.sublist (((List.filter_sublist pe)).map fun r => r.strikePrice) hpe
  calc F.length = (F.map fun r => r.strikePrice).length := (List.length_map _ _).symm
    _ ≤ ((ce.map fun r => r.strikePrice)).length := (hnodup.subperm hsub).length_le
    _ = ce.length := List.length_map _ _

lemma countP_flatMap (p : β → Bool) (f : α → List β) (l : List α) :
    (l.flatMap f).countP p = (l.map fun a => (f a).countP p).sum := by
  induction l with
  | nil => simp
  | cons a t ih => simp [List.flatMap_cons, List.countP_append, ih]

lemma mergeBlock_countP (pe : List AugSideRow)
    (hpe : (pe.map fun r => r.strikePrice).Nodup) (c : AugSideRow) (s : ℚ) :
    (mergeBlock pe c).countP (fun m => decide (m.strikePrice = s)) =
      if c.strikePrice = s then 1 else 0 := by
  by_cases h : c.strikePrice = s
  · rw [if_pos h]
    have hall : ∀ m ∈ mergeBlock pe c, decide (m.strikePrice = s) = true := by
      intro m hm
      rw [decide_eq_true_eq, mergeBlock_strike pe c m hm, h]
    rw [List.countP_eq_length.mpr hall, mergeBlock_length pe hpe c]
  · rw [if_neg h]
    refine List.countP_eq_zero.mpr fun m hm => ?_
    rw [decide_eq_true_eq, mergeBlock_strike pe c m hm]
    exact h

lemma sum_map_if_key (ce : List AugSideRow) (s : ℚ) :
    (ce.map fun c => if c.strikePrice = s then 1 else 0).sum =
      (ce.map fun r => r.strikePrice).count s := by
  induction ce with
  | nil => simp
  | cons a t ih =>
    by_cases h : a.strikePrice = s
    · simp [h, ih, List.count_cons]
      omega
    · simp [h, ih, List.count_cons]

/-- Claim C7: when each windowed side table has at most one row per strike
(its strike column has no duplicates), the outer merge on strikePrice has
at least max(|CE|, |PE|) and at most |CE| + |PE| rows, and a strike present
on both sides occupies exactly one merged row. -/
theorem claim_C7 (ce pe : List AugSideRow)
    (hce : (ce.map fun r => r.strikePrice).Nodup)
    (hpe : (pe.map fun r => r.strikePrice).Nodup) :
    max ce.length pe.length ≤ (mergeOuter ce pe).length ∧
    (mergeOuter ce pe).length ≤ ce.length + pe.length ∧
    ∀ s : ℚ, s ∈ ce.map (fun r => r.strikePrice) → s ∈ pe.map (fun r => r.strikePrice) →
      (mergeOuter ce pe).countP (fun m => decide (m.strikePrice = s)) = 1 := by
  have hA := length_flatMap_mergeBlock ce pe hpe
  have hlen : (mergeOuter ce pe).length =
      ce.length + (pe.filter fun p =>
        ce.all fun c => decide (c.strikePrice ≠ p.strikePrice)).length := by
    rw [mergeOuter, List.length_append, hA, List.length_map]
  have hcompl := length_filter_add_not
    (fun p => ce.all fun c => decide (c.strikePrice ≠ p.strikePrice)) pe
  have hmatched := matched_length_le ce pe hpe
  refine ⟨?_, ?_, ?_⟩
  · rw [max_le_iff, hlen]
    constructor
    · omega
    · omega
  · rw [hlen]
    have := List.length_filter_le
      (fun p => ce.all fun c => decide (c.strikePrice ≠ p.strikePrice)) pe
    omega
  · intro s hsce hspe
    rw [mergeOuter, List.countP_append]
    have hB : ((pe.filter fun p =>
        ce.all fun c => decide (c.strikePrice ≠ p.strikePrice)).map
          fun p => ({ strikePrice := p.strikePrice, ce := none, pe := some p } :
            MergedRow)).countP (fun m => decide (m.strikePrice = s)) = 0 := by
      refine List.countP_eq_zero.mpr fun m hm => ?_
      obtain ⟨p, hpF, rfl⟩ := List.mem_map.mp hm
      have hall := (List.mem_filter.mp hpF).2
      rw [List.all_eq_true] at hall
      obtain ⟨c, hc, hcs⟩ := List.mem_map.mp hsce
      intro hds
      rw [decide_eq_true_eq] at hds
      have := hall c hc
      rw [decide_eq_true_eq] at this
      exact this (by rw [hcs, ← hds])
    have hAcount : (ce.flatMap (mergeBlock pe)).countP
        (fun m => decide (m.strikePrice = s)) = 1 := by
      rw [countP_flatMap]
      have hmap : ce.map (fun c => (mergeBlock pe c).countP
          (fun m => decide (m.strikePrice = s))) =
          ce.map fun c => if c.strikePrice = s then 1 else 0 :=
        List.map_congr_left fun c _ => mergeBlock_countP pe hpe c s
      rw [hmap, sum_map_if_key]
      have h1 : (ce.map fun r => r.strikePrice).count s ≤ 1 :=
        List.nodup_iff_count_le_one.mp hce _
      have h2 : 0 < (ce.map fun r => r.strikePrice).count s :=
        List.count_pos_iff.mpr hsce
      omega
    rw [hB, hAcount]

/-- Witness for C7: two CE rows at strikes 24100 and 24150 against one PE
row at strike 24150. -/
theorem claim_C7_witness :
    max (List.length [(⟨⟨24100, 80, 0, 0, 0⟩, 50, 1/2, 40⟩ : AugSideRow),
          ⟨⟨24150, 50, 0, 0, 0⟩, 0, 1, 50⟩])
        (List.length [(⟨⟨24150, 30, 0, 0, 0⟩, 0, 1, 30⟩ : AugSideRow)]) ≤
      (mergeOuter [⟨⟨24100, 80, 0, 0, 0⟩, 50, 1/2, 40⟩, ⟨⟨24150, 50, 0, 0, 0⟩, 0, 1, 50⟩]
        [⟨⟨24150, 30, 0, 0, 0⟩, 0, 1, 30⟩]).length ∧
    (mergeOuter [⟨⟨24100, 80, 0, 0, 0⟩, 50, 1/2, 40⟩, ⟨⟨24150, 50, 0, 0, 0⟩, 0, 1, 50⟩]
        [⟨⟨24150, 30, 0, 0, 0⟩, 0, 1, 30⟩]).length ≤
      List.length [(⟨⟨24100, 80, 0, 0, 0⟩, 50, 1/2, 40⟩ : AugSideRow),
          ⟨⟨24150, 50, 0, 0, 0⟩, 0, 1, 50⟩] +
      List.length [(⟨⟨24150, 30, 0, 0, 0⟩, 0, 1, 30⟩ : AugSideRow)] ∧
    ∀ s : ℚ,
      s ∈ List.map (fun r => r.strikePrice)
        [(⟨⟨24100, 80, 0, 0, 0⟩, 50, 1/2, 40⟩ : AugSideRow),
          ⟨⟨24150, 50, 0, 0, 0⟩, 0, 1, 50⟩] →
      s ∈ List.map (fun r => r.strikePrice)
        [(⟨⟨24150, 30, 0, 0, 0⟩, 0, 1, 30⟩ : AugSideRow)] →
      (mergeOuter [⟨⟨24100, 80, 0, 0, 0⟩, 50, 1/2, 40⟩, ⟨⟨24150, 50, 0, 0, 0⟩, 0, 1, 50⟩]
        [⟨⟨24150, 30, 0, 0, 0⟩, 0, 1, 30⟩]).countP
          (fun m => decide (m.strikePrice = s)) = 1 :=
  claim_C7 [⟨⟨24100, 80, 0, 0, 0⟩, 50, 1/2, 40⟩, ⟨⟨24150, 50, 0, 0, 0⟩, 0, 1, 50⟩]
    [⟨⟨24150, 30, 0, 0, 0⟩, 0, 1, 30⟩] (by norm_num) (by norm_num)

/-- A snapshot used to exercise parameter resolution. -/
def c8Snapshot : RawSnapshot :=
  { underlyingValue := 100, expiryDates := ["E1", "E2"], data := [] }

/-- A snapshot for a full run whose single record lies outside the window
(underlying 333, interval 50, ATM 350, window -150 to 850, strike 5000). -/
def c8RunSnapshot : RawSnapshot :=
  { underlyingValue := 333
    expiryDates := ["E"]
    data :=
      [{ strikePrice := 5000, expiryDate := "E"
         CE := some ⟨1, 1, 1, 1⟩, PE := some ⟨2, 2, 2, 2⟩ }] }

lemma rns_333_50 : round_nearest_strike 333 50 = 350 := by
  have hc : (⌈(333 : ℚ) / 50⌉ : ℤ) = 7 := by
    rw [Int.ceil_eq_iff]
    norm_num
  rw [round_nearest_strike, hc, pyInt, if_pos (by norm_num)]
  norm_num

/-- Counterexample to C8 as stated: an explicitly supplied empty-string
expiryDate is NOT used unchanged — the source tests `if not expiry_date`,
under which the empty string is falsy, so the first snapshot expiry is
substituted. -/
theorem claim_C8_counterexample :
    resolveExpiry (some "") c8Snapshot = .ok "E1" ∧
    resolveExpiry (some "") c8Snapshot ≠ .ok "" := by
  constructor
  · simp [resolveExpiry, c8Snapshot]
  · simp [resolveExpiry, c8Snapshot]

/-- Claim C8 (amended): a supplied underlyingPrice is used unchanged and
the snapshot value is ignored, else the snapshot value is used; a supplied
NON-EMPTY expiryDate is used unchanged, while an absent or empty-string
expiryDate resolves to the first entry of the snapshot expiry list; and
any successful run returns the resolved underlyingPrice. -/
theorem claim_C8 :
    (∀ (sn : RawSnapshot) (u : ℚ), resolveUnderlying (some u) sn = u) ∧
    (∀ sn : RawSnapshot, resolveUnderlying none sn = sn.underlyingValue) ∧
    (∀ (sn : RawSnapshot) (e : String), e ≠ "" →
      resolveExpiry (some e) sn = .ok e) ∧
    (∀ (sn : RawSnapshot) (e : String) (rest : List String),
      sn.expiryDates = e :: rest →
      resolveExpiry none sn = .ok e ∧ resolveExpiry (some "") sn = .ok e) ∧
    (∀ (sn : RawSnapshot) (ed : Option String) (up : Option ℚ) (si : ℚ)
      (r : ProcResult), process_option_chain sn ed up si = .ok r →
      r.underlying_price = resolveUnderlying up sn) := by
  refine ⟨fun sn u => rfl, fun sn => rfl, ?_, ?_, ?_⟩
  · intro sn e he
    simp [resolveExpiry, he]
  · intro sn e rest hsn
    constructor
    · simp [resolveExpiry, hsn]
    · simp [resolveExpiry, hsn]
  · intro sn ed up si r h
    rw [process_option_chain] at h
    cases hp : processCore sn ed up si with
    | error e =>
      rw [hp] at h
      exact Except.noConfusion h
    | ok r0 =>
      rw [hp] at h
      injection h with h
      subst h
      simp only [processCore] at hp
      split at hp
      · exact Except.noConfusion hp
      · split at hp
        · exact Except.noConfusion hp
        · split at hp
          · exact Except.noConfusion hp
          · split at hp
            · exact Except.noConfusion hp
            · split at hp
              · exact Except.noConfusion hp
              · injection hp with hp
                rw [← hp]

/-- Witness for C8 at concrete inputs, including a full run returning the
resolved underlying price. -/
theorem claim_C8_witness :
    resolveUnderlying (some 5) c8Snapshot = 5 ∧
    resolveUnderlying none c8Snapshot = c8Snapshot.underlyingValue ∧
    resolveExpiry (some "X") c8Snapshot = .ok "X" ∧
    (resolveExpiry none c8Snapshot = .ok "E1" ∧
      resolveExpiry (some "") c8Snapshot = .ok "E1") ∧
    ({ option_chain := [], atm_strike := 350, underlying_price := 333
       ce_weighted_avg := PyFloat.nan, pe_weighted_avg := PyFloat.nan } :
        ProcResult).underlying_price = resolveUnderlying none c8RunSnapshot := by
  have hok : process_option_chain c8RunSnapshot none none 50 =
      .ok { option_chain := [], atm_strike := 350, underlying_price := 333
            ce_weighted_avg := PyFloat.nan, pe_weighted_avg := PyFloat.nan } := by
    norm_num [process_option_chain, processCore, resolveExpiry, c8RunSnapshot, sideRows,
      sideRowsLoop, resolveUnderlying, rns_333_50, sideWindow, windowFilter,
      sortStrike, calculate_weighted_avg_price, pyDiv, mergeOuter, mergeBlock,
      projectSide, augmentRow, wgt]
  exact ⟨claim_C8.1 c8Snapshot 5, claim_C8.2.1 c8Snapshot,
    claim_C8.2.2.1 c8Snapshot "X" (by simp),
    claim_C8.2.2.2.1 c8Snapshot "E1" ["E2"] rfl,
    claim_C8.2.2.2.2 c8RunSnapshot none none 50 _ hok⟩

/-- Counterexample to C9 as stated: computing the weighted averages does
NOT leave the side tables unchanged — the in-place assignments add the
distance, weight and weighted_price columns — and the merged chain carries
the side-suffixed computation columns (weight_CE among them), so its
column set differs from the strikePrice-plus-SideRow-fields layout the
spec describes. -/
theorem claim_C9_counterexample :
    AugSideRow.columns ≠ SideRow.columns ∧
    "weight_CE" ∈ mergedColumns ∧
    mergedColumns ≠ specMergedColumns := by
  refine ⟨?_, ?_, ?_⟩
  · decide
  · decide
  · decide

/-- Claim C9 (amended): calculate_weighted_avg_price keeps every existing
row and field of the table it is given (the SideRow part of each output
row is the input row, in order) but appends the distance, weight and
weighted_price columns, so the merged chain's columns are strikePrice, the
side-suffixed SideRow fields, AND the side-suffixed computation columns. -/
theorem claim_C9 :
    (∀ (rows : List SideRow) (atm si : ℚ),
      ((calculate_weighted_avg_price rows atm si).1.map fun r => r.toSideRow) = rows) ∧
    mergedColumns = ["strikePrice",
      "lastPrice_CE", "openInterest_CE", "changeinOpenInterest_CE",
      "impliedVolatility_CE", "distance_CE", "weight_CE", "weighted_price_CE",
      "lastPrice_PE", "openInterest_PE", "changeinOpenInterest_PE",
      "impliedVolatility_PE", "distance_PE", "weight_PE", "weighted_price_PE"] := by
  constructor
  · intro rows atm si
    show ((rows.map (augmentRow atm si)).map fun r => r.toSideRow) = rows
    rw [List.map_map]
    have h : rows.map ((fun r : AugSideRow => r.toSideRow) ∘ augmentRow atm si) =
        rows.map id := List.map_congr_left fun r _ => rfl
    rw [h, List.map_id]
  · decide

lemma sideRowsLoop_false (side : RawRecord → Option SideQuote) (l : List RawRecord) :
    sideRowsLoop false side l = .ok [] := by
  induction l with
  | nil => rfl
  | cons r rs ih => simp [sideRowsLoop, ih]

lemma sideRows_none (side : RawRecord → Option SideQuote) (l : List RawRecord)
    (h : ∀ r ∈ l, side r = none) : sideRows side l = .ok [] := by
  rw [sideRows]
  have hany : (l.any fun r => (side r).isSome) = false := by
    rw [List.any_eq_false]
    intro r hr
    simp [h r hr]
  rw [hany]
  exact sideRowsLoop_false side l

/-- Claim C10: whenever the resolved expiry matches no record, or every
matching record lacks the CE sub-record, or every matching record lacks
the PE sub-record (so a side's projected table is empty and, in pandas,
has no strikePrice column), process_option_chain returns no table at all:
it fails with an error wrapped in the Processing error context. -/
theorem claim_C10 (sn : RawSnapshot) (ed : Option String) (up : Option ℚ) (si : ℚ)
    (e : String) (hexp : resolveExpiry ed sn = .ok e)
    (hdeg : (sn.data.filter fun d => decide (d.expiryDate = e)) = [] ∨
        (∀ r ∈ sn.data.filter fun d => decide (d.expiryDate = e), r.CE = none) ∨
        (∀ r ∈ sn.data.filter fun d => decide (d.expiryDate = e), r.PE = none)) :
    ∃ msg, process_option_chain sn ed up si =
      .error ("Processing error: " ++ msg) := by
  have hcore : ∃ msg, processCore sn ed up si = .error msg := by
    rcases hdeg with h | h | h
    · exact ⟨"KeyError: strikePrice", by
        simp [processCore, hexp, h, sideRows, sideRowsLoop]⟩
    · have hce : sideRows (fun r => r.CE)
          (sn.data.filter fun d => decide (d.expiryDate = e)) = .ok [] :=
        sideRows_none _ _ h
      cases hp : sideRows (fun r => r.PE)
          (sn.data.filter fun d => decide (d.expiryDate = e)) with
      | error m => exact ⟨m, by simp [processCore, hexp, hce, hp]⟩
      | ok pe => exact ⟨"KeyError: strikePrice", by simp [processCore, hexp, hce, hp]⟩
    · have hpe : sideRows (fun r => r.PE)
          (sn.data.filter fun d => decide (d.expiryDate = e)) = .ok [] :=
        sideRows_none _ _ h
      cases hc : sideRows (fun r => r.CE)
          (sn.data.filter fun d => decide (d.expiryDate = e)) with
      | error m => exact ⟨m, by simp [processCore, hexp, hc]⟩
      | ok ce =>
        by_cases he : ce.isEmpty
        · exact ⟨"KeyError: strikePrice", by simp [processCore, hexp, hc, hpe, he]⟩
        · exact ⟨"KeyError: strikePrice", by simp [processCore, hexp, hc, hpe, he]⟩
  obtain ⟨msg, hm⟩ := hcore
  exact ⟨msg, by rw [process_option_chain, hm]⟩

/-- A snapshot whose (only) expiry matches no record at all. -/
def c10Snapshot : RawSnapshot :=
  { underlyingValue := 1, expiryDates := ["X"], data := [] }

/-- Witness for C10: the selected expiry matches zero records, and the
processor fails with the wrapped error. -/
theorem claim_C10_witness :
    ∃ msg, process_option_chain c10Snapshot none none 50 =
      .error ("Processing error: " ++ msg) :=
  claim_C10 c10Snapshot none none 50 "X" (by simp [resolveExpiry, c10Snapshot])
    (Or.inl rfl)
